import Mathlib

/-
Verification development for the documentation-lookup core of ketera-bot
(src/rust/search.rs, src/rust/mod.rs, src/util.rs).

The network, the HTML parser and the chat transport are the system boundary:
they are modelled by explicit oracles and data (a `Network` function standing
for reqwest, a `Page` structure standing for a parsed scraper::Html document).
Every algorithmic step of the source (URL construction, status classification,
the backward section-extraction pass, candidate dispatch by path length, the
priority selection over candidate results, the session-store writes) is
translated definition by definition below.
-/

deriving instance DecidableEq for Except

/-- Transport-level failure (reqwest::Error): DNS, connection, TLS, timeout. -/
structure TransportError where
  message : String
deriving DecidableEq, Repr

/-- Model of Rust `path.split("::")` on a char list: leftmost, non-overlapping
matches of the two-character separator.  Total and structurally recursive so
that it evaluates inside the kernel. -/
def splitDoubleColonAux : List Char → List (List Char)
  | [] => [[]]
  | ':' :: ':' :: rest => [] :: splitDoubleColonAux rest
  | c :: rest =>
    match splitDoubleColonAux rest with
    | [] => [[c]]
    | h :: t => (c :: h) :: t

/-- Rust `path.split("::").collect::<Vec<_>>()` as used in `get_document`.
Note that splitting the empty string yields `[""]`, never the empty list. -/
def splitPath (s : String) : List String :=
  (splitDoubleColonAux s.data).map (fun cs => String.mk cs)

/-- Per-character form of `escape_html_entities` from util.rs.  The source
chains `replace('&',"&amp;").replace('<',"&lt;").replace('>',"&gt;")`; the
chain is equivalent to this single character map because no replacement
output contains a character that a later pass replaces. -/
def escapeChar (c : Char) : List Char :=
  if c = '&' then "&amp;".data
  else if c = '<' then "&lt;".data
  else if c = '>' then "&gt;".data
  else [c]

/-- util.rs `escape_html_entities`. -/
def escape_html_entities (s : String) : String :=
  String.mk (s.data.foldr (fun c acc => escapeChar c ++ acc) [])

/-- Rust `Vec::<String>::join(sep)`. -/
def joinSep (sep : String) : List String → String
  | [] => ""
  | [x] => x
  | x :: rest => x ++ sep ++ joinSep sep rest

/-- Model of an HTML element's text content: the list of its text fragments
in document order (`ElementRef::text()` yields these fragments). -/
abbrev Elem := List String

/-- search.rs `node_text`: `item.text().collect::<String>()`. -/
def node_text (item : Elem) : String :=
  item.foldl (fun acc s => acc ++ s) ""

/-- search.rs `code_node_text`: reflow the code element's text fragments by
inserting a newline before the token `where` and before every fragment that
starts with whitespace, then HTML-escape and wrap in a code-block template. -/
def code_node_text (code : Elem) : String :=
  let concatted := code.foldl
    (fun acc s =>
      if s == "where" || (match s.data with
        | [] => false
        | ch :: _ => ch.isWhitespace) then
        acc ++ "\n" ++ s
      else
        acc ++ s) ""
  "<pre><code class=\"language-rust\">" ++ escape_html_entities concatted ++ "</code></pre>"

/-- Model of one child element of a description docblock, as classified by the
section loop in `CrateStructure::get_document` and by
`parse_document_paragraph`: an `h1` sub-heading (carrying the heading
element's text fragments), a `p` prose paragraph (carrying its inner HTML,
after the dangling-link regex rewrite which operates on raw markup and is not
modelled further), a `div` code block (carrying its text fragments), or any
other element (ignored by the loop). -/
inductive DocChild
  | h1 (heading : Elem)
  | p (innerHtml : String)
  | div (text : Elem)
  | otherElem
deriving DecidableEq, Repr

/-- search.rs `parse_document_paragraph`: prose paragraphs pass through (with
dangling links stripped, see `DocChild.p`), `div` code blocks are escaped and
wrapped, everything else yields `None`.  The `h1` case never reaches this
function in the source loop but falls to the catch-all `None` here exactly as
it would there. -/
def parse_document_paragraph : DocChild → Option String
  | .p innerHtml => some innerHtml
  | .div text =>
      some ("<pre><code class=\"language-rust\">" ++
        escape_html_entities (node_text text) ++ "</code></pre>")
  | _ => none

/-- Whether a docblock child is an `h1` sub-heading. -/
def isH1 : DocChild → Bool
  | .h1 _ => true
  | _ => false

/-- One step of the backward section loop shared by the Function, Struct,
Trait, Method and TraitMethod branches of `CrateStructure::get_document`:
state is the `sections` vector built so far and the current `buffer`; an `h1`
closes the buffer (reversed back to forward order, joined by newlines) into a
new section and resets it, everything else appends its parsed text, if any,
to the buffer. -/
def sectionStep (st : List (String × String) × List String) (paragraph : DocChild) :
    List (String × String) × List String :=
  match paragraph with
  | .h1 heading =>
      (st.1 ++ [(node_text heading, joinSep "\n" st.2.reverse)], [])
  | other =>
      match parse_document_paragraph other with
      | some text => (st.1, st.2 ++ [text])
      | none => st

/-- The complete backward pass over a docblock's children: fold `sectionStep`
over the children in reverse document order; the buffer remaining at the end
(the content preceding the first heading) becomes the top-level description. -/
def extractSections (children : List DocChild) : List (String × String) × String :=
  let st := children.reverse.foldl sectionStep ([], [])
  (st.1, joinSep "\n" st.2.reverse)

/-- Model of one listing-table row (`tr`) as read by `parse_document_brief`:
the first `td` (present, the source unwraps it), whether a `.deprecated`
node is present, the first `.portability` node, and the `.docblock-short > p`
inner HTML (present, the source unwraps it). -/
structure BriefRow where
  tdText : Elem
  deprecatedPresent : Bool
  portability : Option Elem
  docblockShortHtml : String
deriving DecidableEq, Repr

/-- search.rs `DocumentBriefItem`. -/
structure DocumentBriefItem where
  name : String
  deprecated : Bool
  portability : Option String
  description : String
deriving DecidableEq, Repr

/-- search.rs `parse_document_brief`. -/
def parse_document_brief (item : BriefRow) : DocumentBriefItem :=
  { name := node_text item.tdText
    deprecated := item.deprecatedPresent
    portability := item.portability.map node_text
    description := item.docblockShortHtml }

/-- Model of an HTML element as inspected by the Method/TraitMethod sibling
walk: its class list, its first `strong` descendant (the method portability
selector) and its child elements (for the docblock section loop). -/
structure ElementData where
  classes : List String
  strongElem : Option Elem
  children : List DocChild
deriving DecidableEq, Repr

/-- A forward sibling node of a method anchor: either an element or a
non-element node (text, comment), for which `ElementRef::wrap` yields `None`. -/
inductive SiblingNode
  | element (d : ElementData)
  | nonElement
deriving DecidableEq, Repr

/-- A method-defining anchor element (`id="method.*"` or `id="tymethod.*"`):
its id, its first `code` descendant (present, the source unwraps it) and its
forward sibling nodes in document order. -/
structure AnchorElem where
  id : String
  codeElem : Elem
  siblings : List SiblingNode
deriving DecidableEq, Repr

/-- Model of a parsed documentation page: one field per selector family the
extractor reads.  `definition` is the first `pre` element and
`docblockChildren` the children of the first `div.docblock:not(.type-decl`
match; the source unwraps both, so pages on which extraction is exercised
carry them.  `implementationsInBand` is the `#implementations-list .in-band`
selection, used by the Struct branch for BOTH its methods and its
implementations listings. -/
structure Page where
  portability : Option Elem
  definition : Elem
  docblockChildren : List DocChild
  modules : List BriefRow
  structs : List BriefRow
  traits : List BriefRow
  enums : List BriefRow
  macroRows : List BriefRow
  functionRows : List BriefRow
  attributeRows : List BriefRow
  consts : List BriefRow
  implementationsInBand : List Elem
  requiredMethods : List Elem
  providedMethods : List Elem
  traitImplementations : List Elem
  traitImplementors : List Elem
  anchors : List AnchorElem
deriving DecidableEq, Repr

/-- Model of an HTTP response as classified by the source: whether the status
is a success (2xx), whether it is 302 FOUND (for the docs.rs redirect), the
Location header (the source unwraps it on 302) and the parsed page. -/
structure Response where
  isSuccess : Bool
  isFound : Bool
  location : String
  page : Page
deriving DecidableEq, Repr

/-- The network oracle standing for `WEB_CLIENT.get(url).send().await`:
either a transport error or a response. -/
abbrev Network := String → Except TransportError Response

/-- search.rs `Crate`: the root url of a crate's documentation. -/
structure Crate where
  url : String
deriving DecidableEq, Repr

/-- search.rs `get_std_rs`: static origin table for standard-library crates. -/
def get_std_rs (crate_name : String) : Option Crate :=
  if crate_name == "alloc" || crate_name == "core" || crate_name == "proc_macro" ||
      crate_name == "std" || crate_name == "text" then
    some { url := "https://doc.rust-lang.org/stable/" ++ crate_name ++ "/" }
  else
    none

/-- search.rs `get_docs_rs`: GET the docs.rs crate root with redirects
disabled; a 302 FOUND response's Location header, normalized to end in a
slash, is the origin; any other status is "crate not found". -/
def get_docs_rs (crate_name : String) (net : Network) : Except TransportError (Option Crate) :=
  match net ("https://docs.rs/" ++ crate_name) with
  | .error e => .error e
  | .ok response =>
    if response.isFound then
      let location := response.location
      let location := if location.data.getLast? = some '/' then location else location ++ "/"
      .ok (some { url := location })
    else
      .ok none

/-- search.rs `get_latest_document`: built-in table first, docs.rs otherwise. -/
def get_latest_document (crate_name : String) (net : Network) :
    Except TransportError (Option Crate) :=
  match get_std_rs crate_name with
  | some std => .ok (some std)
  | none => get_docs_rs crate_name net

/-- search.rs `CrateDocument`: the extracted-document model, one variant per
documentation-entity shape. -/
inductive CrateDocument
  | Module (path : String) (portability : Option String)
      (modules structs traits enums macroItems functionItems attributeItems consts :
        List DocumentBriefItem)
  | Function (path definition : String) (portability : Option String)
      (description : String) (sections : List (String × String))
  | Struct (path definition : String) (portability : Option String)
      (description : String) (sections : List (String × String))
      (methods implementations : List String)
  | Trait (path definition : String) (portability : Option String)
      (description : String) (sections : List (String × String))
      (required_methods provided_methods implementations implementors : List String)
  | Method (path definition : String) (portability : Option String)
      (description : String) (sections : List (String × String))
  | TraitMethod (path definition : String) (portability : Option String)
      (description : String) (sections : List (String × String))
deriving DecidableEq, Repr

/-- The generic `sections` sequence of an extracted document (empty for
Module, whose listings live in the fixed buckets instead). -/
def CrateDocument.sectionsOf : CrateDocument → List (String × String)
  | .Module .. => []
  | .Function _ _ _ _ sections => sections
  | .Struct _ _ _ _ sections _ _ => sections
  | .Trait _ _ _ _ sections _ _ _ _ => sections
  | .Method _ _ _ _ sections => sections
  | .TraitMethod _ _ _ _ sections => sections

/-- The leading description of an extracted document (empty for Module). -/
def CrateDocument.descriptionOf : CrateDocument → String
  | .Module .. => ""
  | .Function _ _ _ description _ => description
  | .Struct _ _ _ description _ _ _ => description
  | .Trait _ _ _ description _ _ _ _ _ => description
  | .Method _ _ _ description _ => description
  | .TraitMethod _ _ _ description _ => description

/-- search.rs `CrateStructure`: the six candidate shapes. -/
inductive CrateStructure
  | Module (module : List String)
  | Function (module : List String) (name : String)
  | Struct (module : List String) (name : String)
  | Trait (module : List String) (name : String)
  | Method (module : List String) (strct : String) (name : String)
  | TraitMethod (module : List String) (trt : String) (name : String)
deriving DecidableEq, Repr

/-- The owner segment of an owner-bearing shape (`r#struct` for Method,
`r#trait` for TraitMethod), `none` for the owner-less shapes. -/
def CrateStructure.ownerOf : CrateStructure → Option String
  | .Method _ strct _ => some strct
  | .TraitMethod _ trt _ => some trt
  | _ => none

/-- The fold every branch of `CrateStructure::get_document` runs over
`module[1..]` to build the relative directory part of the URL. -/
def treeOf (module : List String) : String :=
  (module.drop 1).foldl (fun s c => s ++ c ++ "/") ""

/-- The shape-specific URL built by each branch of
`CrateStructure::get_document`: `index.html` for Module, `fn.{name}.html` for
Function, `struct.{name}.html` for Struct and (with the owner's name) Method,
`trait.{name}.html` for Trait and (with the owner's name) TraitMethod. -/
def CrateStructure.url (self : CrateStructure) (c : Crate) : String :=
  match self with
  | .Module module => c.url ++ treeOf module ++ "index.html"
  | .Function module name => c.url ++ treeOf module ++ "fn." ++ name ++ ".html"
  | .Struct module name => c.url ++ treeOf module ++ "struct." ++ name ++ ".html"
  | .Trait module name => c.url ++ treeOf module ++ "trait." ++ name ++ ".html"
  | .Method module strct _ => c.url ++ treeOf module ++ "struct." ++ strct ++ ".html"
  | .TraitMethod module trt _ => c.url ++ treeOf module ++ "trait." ++ trt ++ ".html"

/-- The forward sibling walk shared verbatim by the Method and TraitMethod
branches: look at the anchor's next sibling; if it is an element with class
`stability`, read the portability from its first `strong` and advance to the
following sibling; then, if the current sibling is an element with class
`docblock`, run the section loop over its children, otherwise the description
stays empty and the sections stay absent. -/
def methodDocParts (siblings : List SiblingNode) :
    Option String × List (String × String) × String :=
  let stage :=
    match siblings.head? with
    | some (.element d) =>
        if d.classes.contains "stability" then
          (d.strongElem.map node_text, (siblings.drop 1).head?)
        else
          ((none : Option String), siblings.head?)
    | _ => ((none : Option String), siblings.head?)
  let parts :=
    match stage.2 with
    | some (.element d) =>
        if d.classes.contains "docblock" then extractSections d.children
        else (([] : List (String × String)), "")
    | _ => (([] : List (String × String)), "")
  (stage.1, parts.1, parts.2)

/-- search.rs `CrateStructure::get_document`: fetch the shape's URL (a
transport error propagates), discard the candidate on a non-success status,
otherwise extract the shape's document from the page.  The fetch and the
status check are written identically in all six source branches and are
hoisted in front of the shape match here. -/
def CrateStructure.get_document (self : CrateStructure) (c : Crate) (net : Network) :
    Except TransportError (Option CrateDocument) :=
  match net (self.url c) with
  | .error e => .error e
  | .ok response =>
    if !response.isSuccess then .ok none
    else
      let html := response.page
      match self with
      | .Module module =>
          .ok (some (.Module (joinSep "::" module)
            (html.portability.map node_text)
            (html.modules.map parse_document_brief)
            (html.structs.map parse_document_brief)
            (html.traits.map parse_document_brief)
            (html.enums.map parse_document_brief)
            (html.macroRows.map parse_document_brief)
            (html.functionRows.map parse_document_brief)
            (html.attributeRows.map parse_document_brief)
            (html.consts.map parse_document_brief)))
      | .Function module name =>
          let parts := extractSections html.docblockChildren
          .ok (some (.Function (joinSep "::" module ++ "::" ++ name)
            (code_node_text html.definition)
            (html.portability.map node_text)
            parts.2 parts.1))
      | .Struct module name =>
          let parts := extractSections html.docblockChildren
          .ok (some (.Struct (joinSep "::" module ++ "::" ++ name)
            (code_node_text html.definition)
            (html.portability.map node_text)
            parts.2 parts.1
            (html.implementationsInBand.map code_node_text)
            (html.implementationsInBand.map code_node_text)))
      | .Trait module name =>
          let parts := extractSections html.docblockChildren
          .ok (some (.Trait (joinSep "::" module ++ "::" ++ name)
            (code_node_text html.definition)
            (html.portability.map node_text)
            parts.2 parts.1
            (html.requiredMethods.map code_node_text)
            (html.providedMethods.map code_node_text)
            (html.traitImplementations.map code_node_text)
            (html.traitImplementors.map code_node_text)))
      | .Method module strct name =>
          match html.anchors.find? (fun a => a.id == "method." ++ name) with
          | none => .ok none
          | some function =>
              let parts := methodDocParts function.siblings
              .ok (some (.Method
                (joinSep "::" module ++ "::" ++ strct ++ "::" ++ name)
                (code_node_text function.codeElem)
                parts.1 parts.2.2 parts.2.1))
      | .TraitMethod module trt name =>
          match html.anchors.find?
              (fun a => a.id == "tymethod." ++ name || a.id == "method." ++ name) with
          | none => .ok none
          | some function =>
              let parts := methodDocParts function.siblings
              .ok (some (.TraitMethod
                (joinSep "::" module ++ "::" ++ trt ++ "::" ++ name)
                (code_node_text function.codeElem)
                parts.1 parts.2.2 parts.2.1))

/-- The Rust match over the length-2 candidate results: four or-patterns in
priority order Module, Function, Struct, Trait. -/
def select4 (m f s t : Option CrateDocument) : Option CrateDocument :=
  match m, f, s, t with
  | some r, _, _, _ => some r
  | _, some r, _, _ => some r
  | _, _, some r, _ => some r
  | _, _, _, some r => some r
  | _, _, _, _ => none

/-- The Rust match over the length-3-or-more candidate results: six
or-patterns in priority order Module, Function, Struct, Trait, Method,
TraitMethod. -/
def select6 (m f s t sm tm : Option CrateDocument) : Option CrateDocument :=
  match m, f, s, t, sm, tm with
  | some r, _, _, _, _, _ => some r
  | _, some r, _, _, _, _ => some r
  | _, _, some r, _, _, _ => some r
  | _, _, _, some r, _, _ => some r
  | _, _, _, _, some r, _ => some r
  | _, _, _, _, _, some r => some r
  | _, _, _, _, _, _ => none

/-- tokio `try_join!` over four results: the tuple if all succeed, an error
as soon as one fails.  The source's completion-order nondeterminism over
which error is reported is collapsed to left-to-right order. -/
def tryJoin4 {ε α : Type} : Except ε α → Except ε α → Except ε α → Except ε α →
    Except ε (α × α × α × α)
  | .error e, _, _, _ => .error e
  | .ok _, .error e, _, _ => .error e
  | .ok _, .ok _, .error e, _ => .error e
  | .ok _, .ok _, .ok _, .error e => .error e
  | .ok a, .ok b, .ok c, .ok d => .ok (a, b, c, d)

/-- tokio `try_join!` over six results, as `tryJoin4`. -/
def tryJoin6 {ε α : Type} : Except ε α → Except ε α → Except ε α → Except ε α →
    Except ε α → Except ε α → Except ε (α × α × α × α × α × α)
  | .error e, _, _, _, _, _ => .error e
  | .ok _, .error e, _, _, _, _ => .error e
  | .ok _, .ok _, .error e, _, _, _ => .error e
  | .ok _, .ok _, .ok _, .error e, _, _ => .error e
  | .ok _, .ok _, .ok _, .ok _, .error e, _ => .error e
  | .ok _, .ok _, .ok _, .ok _, .ok _, .error e => .error e
  | .ok a, .ok b, .ok c, .ok d, .ok e, .ok f => .ok (a, b, c, d, e, f)

/-- Body of search.rs `get_document` after the `split("::")`: the empty-tree
guard, the origin lookup, then candidate dispatch by segment count — length 1
dispatches Module only; length 2 dispatches Module, Function, Struct, Trait;
any other length dispatches all six shapes, Method and TraitMethod taking the
second-to-last segment as owner. -/
def resolveTree (tree : List String) (net : Network) :
    Except TransportError (Option CrateDocument) :=
  if tree.isEmpty then .ok none
  else
    match get_latest_document (tree.headD "") net with
    | .error e => .error e
    | .ok none => .ok none
    | .ok (some c) =>
      if tree.length = 1 then
        (CrateStructure.Module tree).get_document c net
      else if tree.length = 2 then
        match tryJoin4
            ((CrateStructure.Module tree).get_document c net)
            ((CrateStructure.Function (tree.take 1) (tree.getD 1 "")).get_document c net)
            ((CrateStructure.Struct (tree.take 1) (tree.getD 1 "")).get_document c net)
            ((CrateStructure.Trait (tree.take 1) (tree.getD 1 "")).get_document c net) with
        | .error e => .error e
        | .ok (m, f, s, t) => .ok (select4 m f s t)
      else
        match tryJoin6
            ((CrateStructure.Module tree).get_document c net)
            ((CrateStructure.Function (tree.take (tree.length - 1))
              (tree.getD (tree.length - 1) "")).get_document c net)
            ((CrateStructure.Struct (tree.take (tree.length - 1))
              (tree.getD (tree.length - 1) "")).get_document c net)
            ((CrateStructure.Trait (tree.take (tree.length - 1))
              (tree.getD (tree.length - 1) "")).get_document c net)
            ((CrateStructure.Method (tree.take (tree.length - 2))
              (tree.getD (tree.length - 2) "") (tree.getD (tree.length - 1) "")).get_document c net)
            ((CrateStructure.TraitMethod (tree.take (tree.length - 2))
              (tree.getD (tree.length - 2) "") (tree.getD (tree.length - 1) "")).get_document c net) with
        | .error e => .error e
        | .ok (m, f, s, t, sm, tm) => .ok (select6 m f s t sm tm)

/-- search.rs top-level `get_document`: split the input path on `::` and
resolve the resulting segment tree. -/
def get_document (path : String) (net : Network) :
    Except TransportError (Option CrateDocument) :=
  resolveTree (splitPath path) net

/-- The candidate set dispatched by `resolveTree` for a given segment tree,
written with the same expressions the dispatch uses. -/
def candidates (tree : List String) : List CrateStructure :=
  if tree.length = 1 then
    [.Module tree]
  else if tree.length = 2 then
    [.Module tree,
     .Function (tree.take 1) (tree.getD 1 ""),
     .Struct (tree.take 1) (tree.getD 1 ""),
     .Trait (tree.take 1) (tree.getD 1 "")]
  else
    [.Module tree,
     .Function (tree.take (tree.length - 1)) (tree.getD (tree.length - 1) ""),
     .Struct (tree.take (tree.length - 1)) (tree.getD (tree.length - 1) ""),
     .Trait (tree.take (tree.length - 1)) (tree.getD (tree.length - 1) ""),
     .Method (tree.take (tree.length - 2)) (tree.getD (tree.length - 2) "")
       (tree.getD (tree.length - 1) ""),
     .TraitMethod (tree.take (tree.length - 2)) (tree.getD (tree.length - 2) "")
       (tree.getD (tree.length - 1) "")]

/-- util.rs `CallbackSession`: the navigation tag stored next to a rendered
documentation message. -/
inductive CallbackSession
  | Docs
deriving DecidableEq, Repr

/-- Chat-transport failure (a teloxide RequestError), which the `?` operator
propagates out of `search_crate` before any store write. -/
structure SendError where
  message : String
deriving DecidableEq, Repr

/-- Association-list model of the std `HashMap` behind the `SEARCH_RESULT`
and `CALLBACK_SESSIONS` statics: `insert` prepends (a colliding key shadows,
i.e. silently overwrites, the stale entry), `get` returns the most recent
entry for the key. -/
def storeInsert {κ ν : Type} (k : κ) (v : ν) (store : List (κ × ν)) : List (κ × ν) :=
  (k, v) :: store

/-- Lookup in the association-list store, see `storeInsert`. -/
def storeGet {κ ν : Type} [BEq κ] (store : List (κ × ν)) (k : κ) : Option ν :=
  (store.find? (fun p => p.1 == k)).map Prod.snd

/-- The two process-wide maps written by `search_crate`, keyed by
`(chat_id, message_id)` (an i64 and an i32 in the source, modelled as
integers). -/
structure SessionState where
  searchResult : List ((Int × Int) × CrateDocument)
  callbackSessions : List ((Int × Int) × CallbackSession)
deriving DecidableEq, Repr

/-- State transition of mod.rs `search_crate` from the resolution result on:
a resolution error is logged and the handler returns with no store write; a
`None` resolution sends a not-found reply, again with no store write; a
resolved document is rendered by the initial `reply_to(..).send()`, whose
failure propagates via `?` before any store write; only after that send
succeeds are both `SEARCH_RESULT` and `CALLBACK_SESSIONS` written under the
sent message's key. -/
def search_crate_session (st : SessionState)
    (result : Except TransportError (Option CrateDocument))
    (send : CrateDocument → Except SendError (Int × Int)) : SessionState :=
  match result with
  | .error _ => st
  | .ok none => st
  | .ok (some document) =>
    match send document with
    | .error _ => st
    | .ok messageKey =>
      { searchResult := storeInsert messageKey document st.searchResult
        callbackSessions := storeInsert messageKey CallbackSession.Docs st.callbackSessions }

/-- Model of Rust `usize::from_str` as used on the callback payload: an
optional leading `+`, then only digits (overflow, which Rust rejects and this
model accepts, is unreachable for the stored section counts). -/
def parse_usize (s : String) : Option Nat :=
  let digits :=
    match s.data with
    | '+' :: rest => rest
    | cs => cs
  if digits ≠ [] ∧ digits.all Char.isDigit then
    some (digits.foldl (fun n c => n * 10 + (c.toNat - '0'.toNat)) 0)
  else
    none

/-- Struct arm of mod.rs `search_crate_callback`: a numeric payload indexes
the generic `sections`; otherwise the fixed keys `methods` and `impls` route
to the promoted listings; anything else selects nothing. -/
def struct_callback_section (sections : List (String × String))
    (methods implementations : List String) (data : String) : Option (String × String) :=
  match (parse_usize data).bind (fun index => sections.get? index) with
  | some found => some found
  | none =>
    match data with
    | "methods" => some ("Methods", joinSep "\n\n" methods)
    | "impls" => some ("Implementations", joinSep "\n\n" implementations)
    | _ => none

/-- Empty parsed page: every selector family matches nothing. -/
def emptyPage : Page :=
  { portability := none
    definition := []
    docblockChildren := []
    modules := []
    structs := []
    traits := []
    enums := []
    macroRows := []
    functionRows := []
    attributeRows := []
    consts := []
    implementationsInBand := []
    requiredMethods := []
    providedMethods := []
    traitImplementations := []
    traitImplementors := []
    anchors := [] }

/-- A non-success (404-style) response. -/
def failResp : Response :=
  { isSuccess := false, isFound := false, location := "", page := emptyPage }

/-- A success (200-style) response carrying the given page. -/
def okResp (p : Page) : Response :=
  { isSuccess := true, isFound := false, location := "", page := p }

/-- Network on which every request fails at the transport level. -/
def errNet : Network := fun _ => .error { message := "connection refused" }

/-- Network on which every page returns a non-success status. -/
def notFoundNet : Network := fun _ => .ok failResp

/-- The static origin of the built-in `std` crate. -/
def stdCrate : Crate := { url := "https://doc.rust-lang.org/stable/std/" }

/-- Whether a sibling node is an element carrying the given class. -/
def isClassed (cls : String) : SiblingNode → Bool
  | .element d => d.classes.contains cls
  | .nonElement => false

/-- Folding a list of puts into the store, for round-trip statements. -/
def putsAll {κ ν : Type} (ps : List (κ × ν)) (st : List (κ × ν)) : List (κ × ν) :=
  ps.foldl (fun s p => storeInsert p.1 p.2 s) st

/-- Docblock child list with two sub-headings, prose around them. -/
def c1Children : List DocChild :=
  [.p "a", .h1 ["H1"], .p "b", .h1 ["H2"], .p "c"]

/-- Network serving a page whose docblock is `c1Children` for every URL. -/
def c1Net : Network :=
  fun _ => .ok (okResp { emptyPage with docblockChildren := c1Children })

/-- Network on which only the page `trait.X.html` under the std origin
exists (success status); every other candidate page is a 404. -/
def traitOnlyNet : Network := fun url =>
  if url == "https://doc.rust-lang.org/stable/std/trait.X.html" then .ok (okResp emptyPage)
  else .ok failResp

/-- The Trait document extracted from an empty page at path `std::X`. -/
def emptyTraitDocX : CrateDocument :=
  .Trait "std::X" (code_node_text []) none "" [] [] [] [] []

/-- Network on which every URL answers success with an empty page. -/
def successNet : Network := fun _ => .ok (okResp emptyPage)

/-- Network on which exactly the `struct.X.html` candidate page under the
std origin fails at the transport level; every other page is a 404. -/
def oneErrNet : Network := fun url =>
  if url == "https://doc.rust-lang.org/stable/std/struct.X.html" then
    .error { message := "connection reset" }
  else .ok failResp

/-- Page whose only feature is a `method.foo` anchor with no siblings. -/
def anchorPage : Page :=
  { emptyPage with anchors := [{ id := "method.foo", codeElem := [], siblings := [] }] }

/-- Network serving `anchorPage` with success status for every URL. -/
def anchorNet : Network := fun _ => .ok (okResp anchorPage)

/-- Sample extracted documents for store statements. -/
def docA : CrateDocument := .Function "a::f" "defA" none "descA" []

/-- Second sample document, distinct from `docA`. -/
def docB : CrateDocument := .Function "b::g" "defB" none "descB" []

/-- Send model that succeeds with message key (1, 2). -/
def sendOk : CrateDocument → Except SendError (Int × Int) := fun _ => .ok (1, 2)

/-- Send model that fails (the chat transport rejects the message). -/
def sendFail : CrateDocument → Except SendError (Int × Int) :=
  fun _ => .error { message := "bad request" }

/-- Helper: a transport error on the candidate's URL propagates unchanged. -/
lemma shape_fetch_error (shape : CrateStructure) (c : Crate) (net : Network)
    (e : TransportError) (h : net (shape.url c) = .error e) :
    shape.get_document c net = .error e := by
  unfold CrateStructure.get_document
  rw [h]

/-- Helper: a non-success status makes the candidate yield Absent. -/
lemma shape_fetch_not_success (shape : CrateStructure) (c : Crate) (net : Network)
    (resp : Response) (h : net (shape.url c) = .ok resp) (hs : resp.isSuccess = false) :
    shape.get_document c net = .ok none := by
  unfold CrateStructure.get_document
  rw [h]
  simp [hs]

/-- Helper: on an all-404 network every candidate yields Absent. -/
lemma shape_all_not_success (shape : CrateStructure) (c : Crate) (net : Network)
    (h : ∀ url, ∃ resp, net url = .ok resp ∧ resp.isSuccess = false) :
    shape.get_document c net = .ok none := by
  obtain ⟨resp, hok, hs⟩ := h (shape.url c)
  exact shape_fetch_not_success shape c net resp hok hs

/-- Helper: a successful four-way join means every candidate succeeded. -/
lemma tryJoin4_ok {ε α : Type} {a b c d : Except ε α} {v : α × α × α × α}
    (h : tryJoin4 a b c d = .ok v) :
    (∃ x, a = .ok x) ∧ (∃ x, b = .ok x) ∧ (∃ x, c = .ok x) ∧ (∃ x, d = .ok x) := by
  cases a <;> cases b <;> cases c <;> cases d <;> simp_all [tryJoin4]

/-- Helper: a successful six-way join means every candidate succeeded. -/
lemma tryJoin6_ok {ε α : Type} {a b c d e f : Except ε α} {v : α × α × α × α × α × α}
    (h : tryJoin6 a b c d e f = .ok v) :
    (∃ x, a = .ok x) ∧ (∃ x, b = .ok x) ∧ (∃ x, c = .ok x) ∧ (∃ x, d = .ok x) ∧
      (∃ x, e = .ok x) ∧ (∃ x, f = .ok x) := by
  cases a <;> cases b <;> cases c <;> cases d <;> cases e <;> cases f <;>
    simp_all [tryJoin6]

/-- Helper: when the origin resolves and every candidate yields Absent, the
resolution yields NotFound. -/
lemma resolveTree_all_none (tree : List String) (net : Network) (c : Crate)
    (horigin : get_latest_document (tree.headD "") net = .ok (some c))
    (hall : ∀ shape : CrateStructure, shape.get_document c net = .ok none) :
    resolveTree tree net = .ok none := by
  unfold resolveTree
  by_cases he : tree.isEmpty
  · simp [he]
  · simp only [he, if_false, Bool.false_eq_true]
    rw [horigin]
    by_cases h1 : tree.length = 1
    · simp [h1, hall]
    · by_cases h2 : tree.length = 2
      · simp [h1, h2, hall, tryJoin4, select4]
      · simp [h1, h2, hall, tryJoin6, select6]

/-- Helper: over heading-free children the section loop only grows the
buffer, by the parsed text of each child in order. -/
lemma foldl_sectionStep_noH1 (l : List DocChild) (sections : List (String × String))
    (buffer : List String) (h : ∀ x ∈ l, isH1 x = false) :
    l.foldl sectionStep (sections, buffer) =
      (sections, buffer ++ l.filterMap parse_document_paragraph) := by
  induction l generalizing buffer with
  | nil => simp
  | cons x xs ih =>
    have hx : isH1 x = false := h x (by simp)
    have hxs : ∀ y ∈ xs, isH1 y = false := fun y hy => h y (by simp [hy])
    cases x with
    | h1 e => simp [isH1] at hx
    | p s =>
      simp only [List.foldl_cons, sectionStep, parse_document_paragraph]
      rw [ih (buffer ++ [s]) hxs]
      simp [List.filterMap_cons, parse_document_paragraph]
    | div e =>
      simp only [List.foldl_cons, sectionStep, parse_document_paragraph]
      rw [ih _ hxs]
      simp [List.filterMap_cons, parse_document_paragraph]
    | otherElem =>
      simp only [List.foldl_cons, sectionStep, parse_document_paragraph]
      rw [ih buffer hxs]
      simp [List.filterMap_cons, parse_document_paragraph]

/-- Helper: the section loop on a docblock of the form
`pre ++ [h1 H1] ++ mid ++ [h1 H2] ++ post` (with heading-free `pre`, `mid`,
`post`) produces the two sections in reverse document order, with each body
drawn from the prose following its own heading, and leaves the prose before
the first heading as the description. -/
lemma extractSections_two_headings (pre mid post : List DocChild) (H1 H2 : Elem)
    (hpre : ∀ x ∈ pre, isH1 x = false) (hmid : ∀ x ∈ mid, isH1 x = false)
    (hpost : ∀ x ∈ post, isH1 x = false) :
    extractSections (pre ++ DocChild.h1 H1 :: (mid ++ DocChild.h1 H2 :: post)) =
      ([(node_text H2, joinSep "\n" (post.filterMap parse_document_paragraph)),
        (node_text H1, joinSep "\n" (mid.filterMap parse_document_paragraph))],
       joinSep "\n" (pre.filterMap parse_document_paragraph)) := by
  have hrev : (pre ++ DocChild.h1 H1 :: (mid ++ DocChild.h1 H2 :: post)).reverse
      = post.reverse ++ DocChild.h1 H2 :: (mid.reverse ++ DocChild.h1 H1 :: pre.reverse) := by
    simp
  have hpre2 : ∀ x ∈ pre.reverse, isH1 x = false := by
    intro x hx; exact hpre x (List.mem_reverse.mp hx)
  have hmid2 : ∀ x ∈ mid.reverse, isH1 x = false := by
    intro x hx; exact hmid x (List.mem_reverse.mp hx)
  have hpost2 : ∀ x ∈ post.reverse, isH1 x = false := by
    intro x hx; exact hpost x (List.mem_reverse.mp hx)
  unfold extractSections
  rw [hrev, List.foldl_append, foldl_sectionStep_noH1 _ _ _ hpost2, List.foldl_cons]
  rw [show sectionStep ([], [] ++ post.reverse.filterMap parse_document_paragraph)
        (DocChild.h1 H2)
      = ([(node_text H2, joinSep "\n" (post.filterMap parse_document_paragraph))], []) from by
    simp [sectionStep, List.filterMap_reverse]]
  rw [List.foldl_append, foldl_sectionStep_noH1 _ _ _ hmid2, List.foldl_cons]
  rw [show sectionStep
        ([(node_text H2, joinSep "\n" (post.filterMap parse_document_paragraph))],
          [] ++ mid.reverse.filterMap parse_document_paragraph)
        (DocChild.h1 H1)
      = ([(node_text H2, joinSep "\n" (post.filterMap parse_document_paragraph)),
          (node_text H1, joinSep "\n" (mid.filterMap parse_document_paragraph))], []) from by
    simp [sectionStep, List.filterMap_reverse]]
  rw [foldl_sectionStep_noH1 _ _ _ hpre2]
  simp [List.filterMap_reverse]

/-- Helper: when no sibling of the anchor is a `docblock`-classed element,
the sibling walk yields no sections and an empty description. -/
lemma methodDocParts_no_docblock (siblings : List SiblingNode)
    (h : ∀ s ∈ siblings, isClassed "docblock" s = false) :
    (methodDocParts siblings).2.1 = [] ∧ (methodDocParts siblings).2.2 = "" := by
  unfold methodDocParts
  cases hh : siblings.head? with
  | none => simp [hh]
  | some s =>
    have hs : isClassed "docblock" s = false := h s (List.mem_of_mem_head? hh)
    cases s with
    | nonElement => simp [hh]
    | element d =>
      by_cases hst : "stability" ∈ d.classes
      · cases hh2 : (siblings.drop 1).head? with
        | none => simp [hh, hh2, hst]
        | some s2 =>
          have hs2 : isClassed "docblock" s2 = false :=
            h s2 (List.drop_subset 1 siblings (List.mem_of_mem_head? hh2))
          cases s2 with
          | nonElement => simp [hh, hh2, hst]
          | element d2 =>
            have hs2m : "docblock" ∉ d2.classes := by
              simpa [isClassed] using hs2
            simp [hh, hh2, hst, hs2m]
      · have hsm : "docblock" ∉ d.classes := by
          simpa [isClassed] using hs
        simp [hh, hst, hsm]

/-- Helper: looking up the key just inserted returns the inserted value. -/
lemma storeGet_insert_self {κ ν : Type} [BEq κ] [LawfulBEq κ] (k : κ) (v : ν)
    (st : List (κ × ν)) : storeGet (storeInsert k v st) k = some v := by
  simp [storeGet, storeInsert]

/-- Helper: inserting under a different key does not change a lookup. -/
lemma storeGet_insert_ne {κ ν : Type} [BEq κ] [LawfulBEq κ] (k kOther : κ) (v : ν)
    (st : List (κ × ν)) (h : kOther ≠ k) :
    storeGet (storeInsert kOther v st) k = storeGet st k := by
  simp [storeGet, storeInsert, List.find?_cons, h]

/-- Helper: a key absent from every put is absent from the resulting store. -/
lemma storeGet_putsAll_none {κ ν : Type} [BEq κ] [LawfulBEq κ] (ps : List (κ × ν))
    (st : List (κ × ν)) (k : κ) (hk : k ∉ ps.map Prod.fst)
    (hst : storeGet st k = none) : storeGet (putsAll ps st) k = none := by
  induction ps generalizing st with
  | nil => simpa [putsAll]
  | cons p rest ih =>
    have hk1 : p.1 ≠ k := fun hkk => hk (by simp [List.map_cons, hkk])
    have hkrest : k ∉ rest.map Prod.fst := fun hkk => hk (by simp [List.map_cons, hkk])
    have hstep : storeGet (storeInsert p.1 p.2 st) k = none := by
      rw [storeGet_insert_ne k p.1 p.2 st hk1, hst]
    simpa [putsAll] using ih (storeInsert p.1 p.2 st) hkrest hstep

/-- Helper: indexing right after the first block of an append. -/
lemma getD_append_len (l1 l2 : List String) (d : String) :
    (l1 ++ l2).getD l1.length d = l2.getD 0 d := by
  induction l1 with
  | nil => simp
  | cons x xs ih => simpa using ih

/-- Helper: the three-or-more-segment candidate list in closed form. -/
lemma candidates_append_two (l : List String) (a b : String) (hl : l ≠ []) :
    candidates (l ++ [a, b]) =
      [.Module (l ++ [a, b]),
       .Function (l ++ [a]) b,
       .Struct (l ++ [a]) b,
       .Trait (l ++ [a]) b,
       .Method l a b,
       .TraitMethod l a b] := by
  have hlen : (l ++ [a, b]).length = l.length + 2 := by simp
  have hne1 : ¬ (l ++ [a, b]).length = 1 := by
    rw [hlen]; omega
  have hne2 : ¬ (l ++ [a, b]).length = 2 := by
    rw [hlen]
    intro hc
    exact hl (List.length_eq_zero.mp (by omega))
  have hassoc : l ++ [a, b] = (l ++ [a]) ++ [b] := by simp
  have htake1 : (l ++ [a, b]).take ((l ++ [a, b]).length - 1) = l ++ [a] := by
    rw [hlen, show l.length + 2 - 1 = (l ++ [a]).length by simp, hassoc, List.take_left]
  have hget1 : (l ++ [a, b]).getD ((l ++ [a, b]).length - 1) "" = b := by
    rw [hlen, show l.length + 2 - 1 = (l ++ [a]).length by simp, hassoc, getD_append_len]
    rfl
  have htake2 : (l ++ [a, b]).take ((l ++ [a, b]).length - 2) = l := by
    rw [hlen, show l.length + 2 - 2 = l.length by omega, List.take_left]
  have hget2 : (l ++ [a, b]).getD ((l ++ [a, b]).length - 2) "" = a := by
    rw [hlen, show l.length + 2 - 2 = l.length by omega, getD_append_len]
    rfl
  rw [candidates, if_neg hne1, if_neg hne2, htake1, hget1, htake2, hget2]

/-- C2: when several candidate shapes yield a non-Absent document, the
resolver returns the highest-priority one in the fixed order Module,
Function, Struct, Trait, Method, TraitMethod (the selection over the joined
results is exactly "first non-None in priority order"), and for a
two-segment path on which only the Trait candidate succeeds the resolution
returns the Trait document — the candidates are all awaited before the
selection, so completion order cannot influence the winner. -/
theorem c2_priority_selection :
    (∀ m f s t sm tm : Option CrateDocument,
      select6 m f s t sm tm = [m, f, s, t, sm, tm].findSome? id) ∧
    (∀ m f s t : Option CrateDocument,
      select4 m f s t = [m, f, s, t].findSome? id) ∧
    (∀ (a b : String) (net : Network) (c : Crate) (d : CrateDocument),
      get_latest_document a net = .ok (some c) →
      (CrateStructure.Module [a, b]).get_document c net = .ok none →
      (CrateStructure.Function [a] b).get_document c net = .ok none →
      (CrateStructure.Struct [a] b).get_document c net = .ok none →
      (CrateStructure.Trait [a] b).get_document c net = .ok (some d) →
      resolveTree [a, b] net = .ok (some d)) := by
  refine ⟨?_, ?_, ?_⟩
  · intro m f s t sm tm
    cases m <;> cases f <;> cases s <;> cases t <;> cases sm <;> cases tm <;> rfl
  · intro m f s t
    cases m <;> cases f <;> cases s <;> cases t <;> rfl
  · intro a b net c d horigin hm hf hs ht
    simp [resolveTree, horigin, hm, hf, hs, ht, tryJoin4, select4]

/-- Witness for C2: on a network where only `trait.X.html` under the std
origin exists, resolving the two-segment tree `std::X` returns the Trait
document. -/
theorem c2_witness :
    resolveTree ["std", "X"] traitOnlyNet = .ok (some emptyTraitDocX) :=
  c2_priority_selection.2.2 "std" "X" traitOnlyNet stdCrate emptyTraitDocX
    rfl rfl rfl rfl rfl

/-- C3: the candidate set is determined purely by the segment count — one
segment dispatches Module only; two segments dispatch the four owner-less
shapes Module, Function, Struct, Trait; three or more segments dispatch all
six shapes with Method and TraitMethod taking the second-to-last segment as
owner and the last as name; owner-bearing shapes never appear below three
segments. -/
theorem c3_candidate_shapes :
    (∀ a : String, candidates [a] = [.Module [a]]) ∧
    (∀ a b : String, candidates [a, b] =
      [.Module [a, b], .Function [a] b, .Struct [a] b, .Trait [a] b]) ∧
    (∀ (l : List String) (a b : String), l ≠ [] →
      candidates (l ++ [a, b]) =
        [.Module (l ++ [a, b]), .Function (l ++ [a]) b, .Struct (l ++ [a]) b,
         .Trait (l ++ [a]) b, .Method l a b, .TraitMethod l a b]) ∧
    (∀ tree : List String, tree ≠ [] → tree.length < 3 →
      ∀ shape ∈ candidates tree, shape.ownerOf = none) := by
  refine ⟨fun a => rfl, fun a b => rfl, fun l a b hl => candidates_append_two l a b hl, ?_⟩
  intro tree hne hlen shape hmem
  match tree, hne with
  | [a], _ =>
    simp [candidates] at hmem
    subst hmem
    rfl
  | [a, b], _ =>
    simp [candidates] at hmem
    rcases hmem with rfl | rfl | rfl | rfl <;> rfl
  | a :: b :: c :: rest, _ =>
    simp at hlen
    omega

/-- Witness for C3: concrete candidate sets at one, two and three segments,
and a concrete owner-less shape for a two-segment tree. -/
theorem c3_witness :
    candidates (["x"] ++ ["y", "z"]) =
      [.Module (["x"] ++ ["y", "z"]), .Function (["x"] ++ ["y"]) "z",
       .Struct (["x"] ++ ["y"]) "z", .Trait (["x"] ++ ["y"]) "z",
       .Method ["x"] "y" "z", .TraitMethod ["x"] "y" "z"] ∧
    candidates ["p"] = [.Module ["p"]] ∧
    candidates ["p", "q"] = [.Module ["p", "q"], .Function ["p"] "q",
      .Struct ["p"] "q", .Trait ["p"] "q"] ∧
    (CrateStructure.Function ["p"] "q").ownerOf = none :=
  ⟨c3_candidate_shapes.2.2.1 ["x"] "y" "z" (by decide),
   c3_candidate_shapes.1 "p",
   c3_candidate_shapes.2.1 "p" "q",
   c3_candidate_shapes.2.2.2 ["p", "q"] (by decide) (by decide)
     (CrateStructure.Function ["p"] "q") (by decide)⟩

/-- C6: the session stores are written only when the resolution produced a
document and the initial render succeeded; a resolution error, a NotFound
resolution or a failed initial send leaves both stores untouched, and the
success case writes both stores under the sent message's key. -/
theorem c6_store_write_only_after_success :
    ∀ (st : SessionState) (result : Except TransportError (Option CrateDocument))
      (send : CrateDocument → Except SendError (Int × Int)),
      (∀ e, result = .error e → search_crate_session st result send = st) ∧
      (result = .ok none → search_crate_session st result send = st) ∧
      (∀ d e, result = .ok (some d) → send d = .error e →
        search_crate_session st result send = st) ∧
      (∀ d k, result = .ok (some d) → send d = .ok k →
        search_crate_session st result send =
          { searchResult := storeInsert k d st.searchResult
            callbackSessions := storeInsert k CallbackSession.Docs st.callbackSessions }) := by
  intro st result send
  refine ⟨?_, ?_, ?_, ?_⟩
  · intro e he
    simp [search_crate_session, he]
  · intro he
    simp [search_crate_session, he]
  · intro d e he hsend
    simp [search_crate_session, he, hsend]
  · intro d k he hsend
    simp [search_crate_session, he, hsend]

/-- Witness for C6: the four cases at concrete states, results and sends. -/
theorem c6_witness :
    search_crate_session ⟨[], []⟩ (.error { message := "x" }) sendOk = ⟨[], []⟩ ∧
    search_crate_session ⟨[], []⟩ (.ok none) sendOk = ⟨[], []⟩ ∧
    search_crate_session ⟨[], []⟩ (.ok (some docA)) sendFail = ⟨[], []⟩ ∧
    search_crate_session ⟨[], []⟩ (.ok (some docA)) sendOk =
      { searchResult := storeInsert (1, 2) docA []
        callbackSessions := storeInsert (1, 2) CallbackSession.Docs [] } :=
  ⟨(c6_store_write_only_after_success ⟨[], []⟩ _ sendOk).1 { message := "x" } rfl,
   (c6_store_write_only_after_success ⟨[], []⟩ _ sendOk).2.1 rfl,
   (c6_store_write_only_after_success ⟨[], []⟩ _ sendFail).2.2.1 docA { message := "bad request" } rfl rfl,
   (c6_store_write_only_after_success ⟨[], []⟩ _ sendOk).2.2.2 docA (1, 2) rfl rfl⟩

/-- C7: session-store round trip — a lookup after a put returns the stored
document, a lookup for a key never put returns nothing, and a second put
under the same key silently overwrites the first. -/
theorem c7_store_round_trip :
    ∀ (c m : Int) (d : CrateDocument) (st : List ((Int × Int) × CrateDocument)),
      storeGet (storeInsert (c, m) d st) (c, m) = some d ∧
      (∀ ps : List ((Int × Int) × CrateDocument),
        (c, m) ∉ ps.map Prod.fst → storeGet (putsAll ps []) (c, m) = none) ∧
      (∀ d2, storeGet (storeInsert (c, m) d2 (storeInsert (c, m) d st)) (c, m) = some d2) := by
  intro c m d st
  refine ⟨storeGet_insert_self (c, m) d st, ?_, fun d2 => storeGet_insert_self (c, m) d2 _⟩
  intro ps hps
  exact storeGet_putsAll_none ps [] (c, m) hps rfl

/-- Witness for C7: round trip, absent key and overwrite at concrete data. -/
theorem c7_witness :
    storeGet (storeInsert ((1 : Int), (2 : Int)) docA []) (1, 2) = some docA ∧
    storeGet (putsAll [(((3 : Int), (4 : Int)), docA)] []) (1, 2) = none ∧
    storeGet (storeInsert ((1 : Int), (2 : Int)) docB
      (storeInsert ((1 : Int), (2 : Int)) docA [])) (1, 2) = some docB :=
  ⟨(c7_store_round_trip 1 2 docA []).1,
   (c7_store_round_trip 1 2 docA []).2.1 [((3, 4), docA)] (by decide),
   (c7_store_round_trip 1 2 docA []).2.2 docB⟩

/-- C9: the guard for an empty segment tree never fires, because splitting
the empty input on `::` yields the one-element tree `[""]`; resolving the
empty path therefore consults the network (the docs.rs origin request) —
observable because the result tracks the network oracle — instead of
returning "not found" before any network access. -/
theorem c9_empty_path_consults_network :
    splitPath "" = [""] ∧
    (splitPath "").isEmpty = false ∧
    get_document "" errNet = .error { message := "connection refused" } ∧
    get_document "" notFoundNet = .ok none :=
  ⟨rfl, rfl, rfl, rfl⟩

/-- Helper: when the origin lookup yields no crate, resolution is NotFound. -/
lemma resolveTree_origin_none (tree : List String) (net : Network)
    (h : get_latest_document (tree.headD "") net = .ok none) :
    resolveTree tree net = .ok none := by
  unfold resolveTree
  by_cases he : tree.isEmpty
  · simp [he]
  · simp only [he, Bool.false_eq_true, if_false]
    rw [h]

/-- Helper: on an all-404 network the origin lookup never fails. -/
lemma get_latest_document_ok (crate_name : String) (net : Network)
    (h : ∀ url, ∃ resp, net url = .ok resp ∧ resp.isSuccess = false) :
    ∃ r, get_latest_document crate_name net = .ok r := by
  unfold get_latest_document
  cases hstd : get_std_rs crate_name with
  | some std => exact ⟨some std, rfl⟩
  | none =>
    unfold get_docs_rs
    obtain ⟨resp, hok, _⟩ := h ("https://docs.rs/" ++ crate_name)
    rw [hok]
    by_cases hf : resp.isFound <;> simp [hf]

/-- C4: a non-success HTTP status on a candidate's page makes that candidate
yield Absent rather than an error, and a resolution on which every fetched
page answers non-2xx yields NotFound rather than a transport failure. -/
theorem c4_not_success_is_absent :
    (∀ (shape : CrateStructure) (c : Crate) (net : Network) (resp : Response),
      net (shape.url c) = .ok resp → resp.isSuccess = false →
      shape.get_document c net = .ok none) ∧
    (∀ (path : String) (net : Network),
      (∀ url, ∃ resp, net url = .ok resp ∧ resp.isSuccess = false) →
      get_document path net = .ok none) := by
  refine ⟨shape_fetch_not_success, ?_⟩
  intro path net h
  unfold get_document
  have hall : ∀ (c : Crate) (shape : CrateStructure), shape.get_document c net = .ok none :=
    fun c shape => shape_all_not_success shape c net h
  obtain ⟨r, horigin⟩ := get_latest_document_ok ((splitPath path).headD "") net h
  cases r with
  | none => exact resolveTree_origin_none _ net horigin
  | some c => exact resolveTree_all_none _ net c horigin (hall c)

/-- Witness for C4: a concrete candidate and a concrete resolution on the
all-404 network both yield Absent / NotFound. -/
theorem c4_witness :
    (CrateStructure.Module ["std"]).get_document stdCrate notFoundNet = .ok none ∧
    get_document "std::foo" notFoundNet = .ok none :=
  ⟨c4_not_success_is_absent.1 (CrateStructure.Module ["std"]) stdCrate notFoundNet failResp
      rfl rfl,
   c4_not_success_is_absent.2 "std::foo" notFoundNet (fun _ => ⟨failResp, rfl, rfl⟩)⟩

/-- Helper: when the origin lookup yields a crate, resolution reduces to the
candidate dispatch on that crate. -/
lemma resolveTree_origin_some (tree : List String) (net : Network) (c : Crate)
    (he : tree.isEmpty = false)
    (h : get_latest_document (tree.headD "") net = .ok (some c)) :
    resolveTree tree net =
      (if tree.length = 1 then
        (CrateStructure.Module tree).get_document c net
      else if tree.length = 2 then
        match tryJoin4
            ((CrateStructure.Module tree).get_document c net)
            ((CrateStructure.Function (tree.take 1) (tree.getD 1 "")).get_document c net)
            ((CrateStructure.Struct (tree.take 1) (tree.getD 1 "")).get_document c net)
            ((CrateStructure.Trait (tree.take 1) (tree.getD 1 "")).get_document c net) with
        | .error e => .error e
        | .ok (m, f, s, t) => .ok (select4 m f s t)
      else
        match tryJoin6
            ((CrateStructure.Module tree).get_document c net)
            ((CrateStructure.Function (tree.take (tree.length - 1))
              (tree.getD (tree.length - 1) "")).get_document c net)
            ((CrateStructure.Struct (tree.take (tree.length - 1))
              (tree.getD (tree.length - 1) "")).get_document c net)
            ((CrateStructure.Trait (tree.take (tree.length - 1))
              (tree.getD (tree.length - 1) "")).get_document c net)
            ((CrateStructure.Method (tree.take (tree.length - 2))
              (tree.getD (tree.length - 2) "") (tree.getD (tree.length - 1) "")).get_document c net)
            ((CrateStructure.TraitMethod (tree.take (tree.length - 2))
              (tree.getD (tree.length - 2) "") (tree.getD (tree.length - 1) "")).get_document c net) with
        | .error e => .error e
        | .ok (m, f, s, t, sm, tm) => .ok (select6 m f s t sm tm)) := by
  unfold resolveTree
  simp only [he, Bool.false_eq_true, if_false]
  rw [h]

/-- C5: a transport-level error on a candidate's fetch propagates out of that
candidate unchanged; a resolution that completes with `ok` had every
dispatched candidate complete with `ok` (no transport failure is ever
converted into Absent or NotFound); and a transport failure on any dispatched
candidate makes the whole resolution fail. -/
theorem c5_transport_error_fail_fast :
    (∀ (shape : CrateStructure) (c : Crate) (net : Network) (e : TransportError),
      net (shape.url c) = .error e → shape.get_document c net = .error e) ∧
    (∀ (tree : List String) (net : Network) (c : Crate) (r : Option CrateDocument),
      tree.isEmpty = false →
      resolveTree tree net = .ok r →
      get_latest_document (tree.headD "") net = .ok (some c) →
      ∀ shape ∈ candidates tree, ∃ x, shape.get_document c net = .ok x) ∧
    (∀ (tree : List String) (net : Network) (c : Crate) (sh : CrateStructure)
        (e : TransportError),
      tree.isEmpty = false →
      get_latest_document (tree.headD "") net = .ok (some c) →
      sh ∈ candidates tree →
      sh.get_document c net = .error e →
      ∃ e2, resolveTree tree net = .error e2) := by
  have hpart2 : ∀ (tree : List String) (net : Network) (c : Crate) (r : Option CrateDocument),
      tree.isEmpty = false →
      resolveTree tree net = .ok r →
      get_latest_document (tree.headD "") net = .ok (some c) →
      ∀ shape ∈ candidates tree, ∃ x, shape.get_document c net = .ok x := by
    intro tree net c r he hres horigin shape hmem
    rw [resolveTree_origin_some tree net c he horigin] at hres
    by_cases h1 : tree.length = 1
    · rw [if_pos h1] at hres
      unfold candidates at hmem
      rw [if_pos h1] at hmem
      simp only [List.mem_singleton] at hmem
      subst hmem
      exact ⟨r, hres⟩
    · by_cases h2 : tree.length = 2
      · rw [if_neg h1, if_pos h2] at hres
        unfold candidates at hmem
        rw [if_neg h1, if_pos h2] at hmem
        split at hres
        · exact absurd hres (by simp)
        · next m f s t heq =>
          obtain ⟨hA, hB, hC, hD⟩ := tryJoin4_ok heq
          simp only [List.mem_cons, List.not_mem_nil, or_false] at hmem
          rcases hmem with rfl | rfl | rfl | rfl
          · exact hA
          · exact hB
          · exact hC
          · exact hD
      · rw [if_neg h1, if_neg h2] at hres
        unfold candidates at hmem
        rw [if_neg h1, if_neg h2] at hmem
        split at hres
        · exact absurd hres (by simp)
        · next m f s t sm tm heq =>
          obtain ⟨hA, hB, hC, hD, hE, hF⟩ := tryJoin6_ok heq
          simp only [List.mem_cons, List.not_mem_nil, or_false] at hmem
          rcases hmem with rfl | rfl | rfl | rfl | rfl | rfl
          · exact hA
          · exact hB
          · exact hC
          · exact hD
          · exact hE
          · exact hF
  refine ⟨shape_fetch_error, hpart2, ?_⟩
  intro tree net c sh e he horigin hmem herr
  cases hres : resolveTree tree net with
  | error e2 => exact ⟨e2, rfl⟩
  | ok r =>
    obtain ⟨x, hx⟩ := hpart2 tree net c r he hres horigin sh hmem
    rw [herr] at hx
    exact absurd hx (by simp)

/-- Witness for C5: a transport error on the single Module candidate
propagates unchanged, and a transport error on one of the two-segment
candidates makes the whole resolution fail. -/
theorem c5_witness :
    (CrateStructure.Module ["std"]).get_document stdCrate errNet =
      .error { message := "connection refused" } ∧
    (∃ e2, resolveTree ["std", "X"] oneErrNet = .error e2) :=
  ⟨c5_transport_error_fail_fast.1 (CrateStructure.Module ["std"]) stdCrate errNet
      { message := "connection refused" } rfl,
   c5_transport_error_fail_fast.2.2 ["std", "X"] oneErrNet stdCrate
      (CrateStructure.Struct (["std", "X"].take 1) (["std", "X"].getD 1 ""))
      { message := "connection reset" } rfl rfl (by decide) rfl⟩

/-- C1 (amended): for a description block containing sub-headings H1 and H2
in that document order, the extracted `sections` sequence lists the two
sections in REVERSE document order — `[H2, H1]`, each with the body drawn
from the prose following its own heading — while `description` contains
exactly the prose preceding the first heading; the same holds for the
Function extraction branch reading such a page. -/
theorem c1_sections_reverse_document_order :
    (∀ (pre mid post : List DocChild) (H1 H2 : Elem),
      (∀ x ∈ pre, isH1 x = false) → (∀ x ∈ mid, isH1 x = false) →
      (∀ x ∈ post, isH1 x = false) →
      extractSections (pre ++ DocChild.h1 H1 :: (mid ++ DocChild.h1 H2 :: post)) =
        ([(node_text H2, joinSep "\n" (post.filterMap parse_document_paragraph)),
          (node_text H1, joinSep "\n" (mid.filterMap parse_document_paragraph))],
         joinSep "\n" (pre.filterMap parse_document_paragraph))) ∧
    (∀ (module : List String) (name : String) (c : Crate) (net : Network) (resp : Response)
        (pre mid post : List DocChild) (H1 H2 : Elem),
      net ((CrateStructure.Function module name).url c) = .ok resp →
      resp.isSuccess = true →
      resp.page.docblockChildren = pre ++ DocChild.h1 H1 :: (mid ++ DocChild.h1 H2 :: post) →
      (∀ x ∈ pre, isH1 x = false) → (∀ x ∈ mid, isH1 x = false) →
      (∀ x ∈ post, isH1 x = false) →
      (CrateStructure.Function module name).get_document c net =
        .ok (some (.Function (joinSep "::" module ++ "::" ++ name)
          (code_node_text resp.page.definition)
          (resp.page.portability.map node_text)
          (joinSep "\n" (pre.filterMap parse_document_paragraph))
          [(node_text H2, joinSep "\n" (post.filterMap parse_document_paragraph)),
           (node_text H1, joinSep "\n" (mid.filterMap parse_document_paragraph))]))) := by
  refine ⟨extractSections_two_headings, ?_⟩
  intro module name c net resp pre mid post H1 H2 hnet hs hdoc hpre hmid hpost
  unfold CrateStructure.get_document
  rw [hnet]
  simp only [hs, Bool.not_true, Bool.false_eq_true, if_false]
  rw [hdoc, extractSections_two_headings pre mid post H1 H2 hpre hmid hpost]

/-- Counterexample for C1 as stated: a description block with headings H1
then H2 extracts the `sections` sequence `[H2, H1]`, not `[H1, H2]` (the
description itself does hold the pre-heading prose only). -/
theorem c1_counterexample :
    (extractSections c1Children).1.map Prod.fst = ["H2", "H1"] ∧
    (extractSections c1Children).1.map Prod.fst ≠ ["H1", "H2"] ∧
    (extractSections c1Children).2 = "a" ∧
    (CrateStructure.Function ["std"] "f").get_document stdCrate c1Net =
      .ok (some (.Function "std::f" (code_node_text []) none "a"
        [("H2", "c"), ("H1", "b")])) :=
  ⟨rfl, by decide, rfl, rfl⟩

/-- Witness for C1: the amended theorem applied to the concrete two-heading
page served by `c1Net`. -/
theorem c1_witness :
    (CrateStructure.Function ["std"] "f").get_document stdCrate c1Net =
      .ok (some (.Function "std::f" (code_node_text []) none "a"
        [("H2", "c"), ("H1", "b")])) :=
  c1_sections_reverse_document_order.2 ["std"] "f" stdCrate c1Net
    (okResp { emptyPage with docblockChildren := c1Children })
    [DocChild.p "a"] [DocChild.p "b"] [DocChild.p "c"] ["H1"] ["H2"]
    rfl rfl rfl (by decide) (by decide) (by decide)

/-- C8: a Method (resp. TraitMethod) candidate whose fetched page lacks the
exact `method.{name}` (resp. `tymethod.{name}` / `method.{name}`) anchor
yields Absent; when the anchor is present but no adjacent docblock follows
it, extraction succeeds with an empty description and no sections. -/
theorem c8_method_anchor_gate :
    (∀ (module : List String) (strct name : String) (c : Crate) (net : Network)
        (resp : Response),
      net ((CrateStructure.Method module strct name).url c) = .ok resp →
      resp.isSuccess = true →
      resp.page.anchors.find? (fun a => a.id == "method." ++ name) = none →
      (CrateStructure.Method module strct name).get_document c net = .ok none) ∧
    (∀ (module : List String) (trt name : String) (c : Crate) (net : Network)
        (resp : Response),
      net ((CrateStructure.TraitMethod module trt name).url c) = .ok resp →
      resp.isSuccess = true →
      resp.page.anchors.find?
          (fun a => a.id == "tymethod." ++ name || a.id == "method." ++ name) = none →
      (CrateStructure.TraitMethod module trt name).get_document c net = .ok none) ∧
    (∀ (module : List String) (strct name : String) (c : Crate) (net : Network)
        (resp : Response) (fel : AnchorElem),
      net ((CrateStructure.Method module strct name).url c) = .ok resp →
      resp.isSuccess = true →
      resp.page.anchors.find? (fun a => a.id == "method." ++ name) = some fel →
      (∀ s ∈ fel.siblings, isClassed "docblock" s = false) →
      ∃ doc, (CrateStructure.Method module strct name).get_document c net =
          .ok (some doc) ∧ doc.descriptionOf = "" ∧ doc.sectionsOf = []) ∧
    (∀ (module : List String) (trt name : String) (c : Crate) (net : Network)
        (resp : Response) (fel : AnchorElem),
      net ((CrateStructure.TraitMethod module trt name).url c) = .ok resp →
      resp.isSuccess = true →
      resp.page.anchors.find?
          (fun a => a.id == "tymethod." ++ name || a.id == "method." ++ name) = some fel →
      (∀ s ∈ fel.siblings, isClassed "docblock" s = false) →
      ∃ doc, (CrateStructure.TraitMethod module trt name).get_document c net =
          .ok (some doc) ∧ doc.descriptionOf = "" ∧ doc.sectionsOf = []) := by
  refine ⟨?_, ?_, ?_, ?_⟩
  · intro module strct name c net resp hnet hs hfind
    unfold CrateStructure.get_document
    rw [hnet]
    simp [hs, hfind]
  · intro module trt name c net resp hnet hs hfind
    unfold CrateStructure.get_document
    rw [hnet]
    simp [hs, hfind]
  · intro module strct name c net resp fel hnet hs hfind hsib
    refine ⟨.Method (joinSep "::" module ++ "::" ++ strct ++ "::" ++ name)
      (code_node_text fel.codeElem) (methodDocParts fel.siblings).1
      (methodDocParts fel.siblings).2.2 (methodDocParts fel.siblings).2.1, ?_, ?_, ?_⟩
    · unfold CrateStructure.get_document
      rw [hnet]
      simp [hs, hfind]
    · exact (methodDocParts_no_docblock fel.siblings hsib).2
    · exact (methodDocParts_no_docblock fel.siblings hsib).1
  · intro module trt name c net resp fel hnet hs hfind hsib
    refine ⟨.TraitMethod (joinSep "::" module ++ "::" ++ trt ++ "::" ++ name)
      (code_node_text fel.codeElem) (methodDocParts fel.siblings).1
      (methodDocParts fel.siblings).2.2 (methodDocParts fel.siblings).2.1, ?_, ?_, ?_⟩
    · unfold CrateStructure.get_document
      rw [hnet]
      simp [hs, hfind]
    · exact (methodDocParts_no_docblock fel.siblings hsib).2
    · exact (methodDocParts_no_docblock fel.siblings hsib).1

/-- Witness for C8: the anchorless page makes Method and TraitMethod
candidates yield Absent; the page with a bare `method.foo` anchor extracts a
document with empty description and no sections. -/
theorem c8_witness :
    (CrateStructure.Method ["std"] "S" "foo").get_document stdCrate successNet = .ok none ∧
    (CrateStructure.TraitMethod ["std"] "T" "foo").get_document stdCrate successNet =
      .ok none ∧
    (∃ doc, (CrateStructure.Method ["std"] "S" "foo").get_document stdCrate anchorNet =
        .ok (some doc) ∧ doc.descriptionOf = "" ∧ doc.sectionsOf = []) ∧
    (∃ doc, (CrateStructure.TraitMethod ["std"] "T" "foo").get_document stdCrate anchorNet =
        .ok (some doc) ∧ doc.descriptionOf = "" ∧ doc.sectionsOf = []) :=
  ⟨c8_method_anchor_gate.1 ["std"] "S" "foo" stdCrate successNet (okResp emptyPage)
      rfl rfl rfl,
   c8_method_anchor_gate.2.1 ["std"] "T" "foo" stdCrate successNet (okResp emptyPage)
      rfl rfl rfl,
   c8_method_anchor_gate.2.2.1 ["std"] "S" "foo" stdCrate anchorNet (okResp anchorPage)
      { id := "method.foo", codeElem := [], siblings := [] } rfl rfl rfl (by simp),
   c8_method_anchor_gate.2.2.2 ["std"] "T" "foo" stdCrate anchorNet (okResp anchorPage)
      { id := "method.foo", codeElem := [], siblings := [] } rfl rfl rfl (by simp)⟩

/-- C10: a successfully extracted Struct document carries identical
`methods` and `implementations` listings (both are collected from the
`#implementations-list .in-band` selection), so the follow-up selectors
`methods` and `impls` render the same listing body. -/
theorem c10_struct_methods_equal_impls :
    ∀ (module : List String) (name : String) (c : Crate) (net : Network)
      (p d : String) (pb : Option String) (desc : String)
      (secs : List (String × String)) (ms impls : List String),
      (CrateStructure.Struct module name).get_document c net =
        .ok (some (.Struct p d pb desc secs ms impls)) →
      ms = impls ∧
      (struct_callback_section secs ms impls "methods").map Prod.snd =
        (struct_callback_section secs ms impls "impls").map Prod.snd := by
  intro module name c net p d pb desc secs ms impls h
  have hm : ms = impls := by
    unfold CrateStructure.get_document at h
    cases hnet : net ((CrateStructure.Struct module name).url c) with
    | error e =>
      rw [hnet] at h
      exact absurd h (by simp)
    | ok resp =>
      rw [hnet] at h
      by_cases hs : resp.isSuccess
      · simp only [hs, Bool.not_true, Bool.false_eq_true, if_false] at h
        simp only [Except.ok.injEq, Option.some.injEq, CrateDocument.Struct.injEq] at h
        obtain ⟨-, -, -, -, -, hms, himpls⟩ := h
        rw [← hms, ← himpls]
      · simp [hs] at h
  subst hm
  exact ⟨rfl, rfl⟩

/-- Witness for C10: a Struct document extracted from the empty success page
has equal listings and equal follow-up bodies for `methods` and `impls`. -/
theorem c10_witness :
    ([] : List String) = [] ∧
    (struct_callback_section [] [] [] "methods").map Prod.snd =
      (struct_callback_section [] [] [] "impls").map Prod.snd :=
  c10_struct_methods_equal_impls ["std"] "S" stdCrate successNet
    "std::S" (code_node_text []) none "" [] [] [] rfl
